import Mathlib

/-!
Shallow embedding of `torch_tvm/compiler.cpp` (a PyTorch JIT → TVM Relay
compiler bridge) and verification of its specification.

Conventions used throughout:
* C++ exceptions (`TORCH_CHECK`, `TORCH_INTERNAL_ASSERT`, `AT_ERROR`) are
  modelled with `Except` / explicit outcome constructors.
* C++ `double` values are modelled as exact dyadic rationals `m * 2^e`
  (every IEEE-754 double is such a number); comparisons on doubles are
  exact, so the range checks translate exactly.
* Machine integers (`int64_t` JIT scalars) are modelled as `Int` with the
  explicit `int32` bounds from `std::numeric_limits` where the code checks
  them.
* External collaborators (the operator-translation table `getOperator`,
  the TVM build pipeline, and the JIT interpreter fallback) are parameters
  of the model, collected in an `Env` structure.
-/

/-- The `at::ScalarType` enumeration (the variants that exist in the
PyTorch revision this code builds against). -/
inductive ScalarType where
  | Byte | Char | Short | Int | Long | Half | Float | Double
  | ComplexHalf | ComplexFloat | ComplexDouble | Bool
  | QInt8 | QUInt8 | QInt32 | BFloat16
deriving DecidableEq, Fintype

/-- A TVM Relay scalar data type (`tvm::Float(b)`, `tvm::Int(b)`,
`tvm::UInt(b)`; `tvm::Bool()` is `UInt(1)` in TVM). -/
inductive TVMType where
  | float (bits : Nat)
  | int (bits : Nat)
  | uint (bits : Nat)
deriving DecidableEq

/-- The distinct failures raised by `TORCH_CHECK` / `TORCH_INTERNAL_ASSERT`
sites of the translation pipeline (plus `fuelExhausted`, an artifact of
bounding the breadth-first loop of `convertToRelay`, which the C++ code
runs without a bound; and `opError`, the failure of the external operator
translation table). -/
inductive TVMError where
  | unsupportedType (t : ScalarType)
  | rangeError
  | unsupportedConstant
  | typeError
  | internalAssert
  | internalConsistency (freeCount : Nat) (inputCount : Nat)
  | opError (name : String)
  | outputCountMismatch (expected : Nat) (got : Nat)
  | fuelExhausted
deriving DecidableEq

instance exceptDecEq {ε α : Type} [DecidableEq ε] [DecidableEq α] :
    DecidableEq (Except ε α) := fun a b =>
  match a, b with
  | .ok x, .ok y =>
    match decEq x y with
    | .isTrue h => .isTrue (h ▸ rfl)
    | .isFalse h => .isFalse (fun hh => h (Except.ok.inj hh))
  | .error x, .error y =>
    match decEq x y with
    | .isTrue h => .isTrue (h ▸ rfl)
    | .isFalse h => .isFalse (fun hh => h (Except.error.inj hh))
  | .ok _, .error _ => .isFalse (fun hh => Except.noConfusion hh)
  | .error _, .ok _ => .isFalse (fun hh => Except.noConfusion hh)

/-- Embedding of `scalarTypeToTVMType` (compiler.cpp:15-33): the lookup in
the static `type_mapping` table, with the `TORCH_CHECK` failure carrying
the offending type for any type absent from the table. -/
def scalarTypeToTVMType : ScalarType → Except TVMError TVMType
  | .Float => .ok (.float 32)
  | .Double => .ok (.float 64)
  | .Int => .ok (.int 32)
  | .Long => .ok (.int 64)
  | .Bool => .ok (.uint 1)
  | .Char => .ok (.int 8)
  | .Byte => .ok (.uint 8)
  | .QInt8 => .ok (.int 8)
  | .QUInt8 => .ok (.uint 8)
  | .QInt32 => .ok (.int 32)
  | t => .error (.unsupportedType t)

/-- An exact dyadic rational `m * 2^e`: the value set of IEEE-754 binary
floating point numbers.  Used to model C++ `double` scalars exactly. -/
structure Dyadic where
  m : Int
  e : Int
deriving DecidableEq

/-- The rational value of a dyadic number. -/
def Dyadic.toRat (d : Dyadic) : ℚ := (d.m : ℚ) * (2 : ℚ) ^ d.e

/-- Value comparison of dyadic numbers, by bringing both to the smaller
exponent (executable, integer-only). -/
def Dyadic.dle (a b : Dyadic) : Bool :=
  if a.e ≤ b.e then a.m ≤ b.m * 2 ^ (b.e - a.e).toNat
  else a.m * 2 ^ (a.e - b.e).toNat ≤ b.m

/-- Exact value of `std::numeric_limits<float>::max()`: `(2^24 - 1) * 2^104`. -/
def floatMaxD : Dyadic := ⟨2 ^ 24 - 1, 104⟩

/-- Exact value of `std::numeric_limits<float>::lowest()`: the negation of the maximum. -/
def floatLowestD : Dyadic := ⟨-(2 ^ 24 - 1), 104⟩

/-- Number of bits of a natural number (auxiliary, fuel-driven so that the
kernel can evaluate it). -/
def bitLenGo : Nat → Nat → Nat
  | 0, _ => 0
  | fuel + 1, n => if n = 0 then 0 else bitLenGo fuel (n / 2) + 1

/-- Number of bits of a natural number: `2^(bitLen n - 1) ≤ n < 2^(bitLen n)`
for `n > 0`. -/
def bitLen (n : Nat) : Nat := bitLenGo n n

/-- Model of `static_cast<float>` on an in-range double: round to the nearest
IEEE-754 binary32 value, ties to even, including the subnormal range
(binades are clamped at `2^-126`, the unit in the last place there being
`2^-149`). -/
def roundF32 (d : Dyadic) : Dyadic :=
  if d.m = 0 then ⟨0, 0⟩
  else
    let s : Int := if d.m < 0 then -1 else 1
    let a : Nat := d.m.natAbs
    let flog : Int := (bitLen a : Int) - 1 + d.e
    let ebin : Int := max flog (-126)
    let ulpExp : Int := ebin - 23
    if d.e ≥ ulpExp then ⟨d.m * 2 ^ (d.e - ulpExp).toNat, ulpExp⟩
    else
      let shift : Nat := (ulpExp - d.e).toNat
      let q : Nat := a / 2 ^ shift
      let r : Nat := a % 2 ^ shift
      let half : Nat := 2 ^ (shift - 1)
      let rounded : Nat :=
        if r < half then q
        else if half < r then q + 1
        else if q % 2 = 0 then q else q + 1
      ⟨s * rounded, ulpExp⟩

/-- A concrete `at::Tensor` as far as this code can observe it: shape,
element type, the address of its data buffer, and the address the buffer
would get after an element-type conversion that has to reallocate
(`Tensor::to` returns the same tensor when the type already matches, and a
freshly allocated one otherwise; the fresh address is part of the input
data of the model). -/
structure TensorV where
  shape : List Nat
  dtype : ScalarType
  addr : Nat
  convAddr : Nat
deriving DecidableEq

/-- The `torch::jit::IValue` variants that `TVMCompiler` can observe. -/
inductive IValue where
  | double (d : Dyadic)
  | int (n : Int)
  | bool (b : Bool)
  | none
  | intList (xs : List Int)
  | tensor (t : TensorV)
deriving DecidableEq

/-- The payload of a Relay `ConstantNode` produced by the translator.  The
`noneSentinel` token stands for the numeric value of `getNoneSentinel()`,
which is declared outside this translation unit; the spec fixes only that
it is a reserved `uint64` sentinel. -/
inductive ConstVal where
  | floatVal (d : Dyadic)
  | intVal (n : Int)
  | boolVal (b : Bool)
  | noneSentinel
deriving DecidableEq

/-- A Relay tensor type: dimension sizes (after the `static_cast<int32_t>`
of compiler.cpp:44) and element type. -/
structure TensorTy where
  shape : List Int
  dtype : TVMType
deriving DecidableEq

/-- The Relay expressions this translation unit builds or receives from
the operator-translation table.  A `VarNode` is identified by its unique
name (`debugName + pointer`, compiler.cpp:48-51), modelled by the value
id. -/
inductive RelayExpr where
  | var (id : Nat) (ty : TensorTy)
  | const (dtype : TVMType) (v : ConstVal)
  | call (op : String) (args : List RelayExpr)
  | tuple (elems : List RelayExpr)
  | tupleGetItem (t : RelayExpr) (idx : Nat)

mutual
/-- Ids of the variables occurring in an expression, with multiplicity
(`tvm::relay::FreeVars` visits every variable occurrence; dedup happens at
the use site).  Every expression of this development is closed except for
its variables, so occurring = free. -/
def freeVarIds : RelayExpr → List Nat
  | .var i _ => [i]
  | .const _ _ => []
  | .call _ args => freeVarIdsList args
  | .tuple es => freeVarIdsList es
  | .tupleGetItem t _ => freeVarIds t

/-- Variable ids of a list of expressions, in order. -/
def freeVarIdsList : List RelayExpr → List Nat
  | [] => []
  | e :: es => freeVarIds e ++ freeVarIdsList es
end

/-- Value of `std::numeric_limits<int32_t>::max()`. -/
def int32Max : Int := 2147483647

/-- Value of `std::numeric_limits<int32_t>::lowest()`. -/
def int32Min : Int := -2147483648

/-- Element-wise translation of a JIT int list (compiler.cpp:99-110): each
element gets the two int32 range `TORCH_CHECK`s, in order, and becomes an
int32 scalar constant. -/
def convertIntListElems : List Int → Except TVMError (List RelayExpr)
  | [] => .ok []
  | n :: rest =>
    if n ≤ int32Max then
      if int32Min ≤ n then
        (convertIntListElems rest).map
          (fun es => RelayExpr.const (.int 32) (.intVal n) :: es)
      else .error .rangeError
    else .error .rangeError

/-- Embedding of `TVMCompiler::convertToRelay(const IValue&, TVMContext)`
(compiler.cpp:57-114): the constant translator.  Doubles are narrowed to
float32 after two range `TORCH_CHECK`s against `float` max/lowest;
integers are narrowed to int32 after two range checks; booleans become
bool (uint1) constants; None becomes the reserved uint64 sentinel
constant; an int list becomes a tuple of int32 constants; anything else
(here: a tensor, which the callers of this function always filter out
beforehand) hits the final `TORCH_CHECK(0)`. -/
def convertIValueToRelay : IValue → Except TVMError RelayExpr
  | .double d =>
    if d.dle floatMaxD then
      if floatLowestD.dle d then
        .ok (.const (.float 32) (.floatVal (roundF32 d)))
      else .error .rangeError
    else .error .rangeError
  | .int n =>
    if n ≤ int32Max then
      if int32Min ≤ n then .ok (.const (.int 32) (.intVal n))
      else .error .rangeError
    else .error .rangeError
  | .bool b => .ok (.const (.uint 1) (.boolVal b))
  | .none => .ok (.const (.uint 64) .noneSentinel)
  | .intList xs => (convertIntListElems xs).map RelayExpr.tuple
  | .tensor _ => .error .unsupportedConstant

/-- A node (operation) of a JIT subgraph: ordered input value ids, ordered
output value ids, and its operator kind (consumed only by the external
operator-translation table). -/
structure Node where
  inputs : List Nat
  outputs : List Nat
  kind : String

/-- Static per-value data of a subgraph: the result of `toIValue` (present
iff the value is a compile-time constant) and the value's complete tensor
type, when known (shape and element type; `isCompleteTensor` is its
presence). -/
structure ValueData where
  constVal : Option IValue
  ty : Option (List Nat × ScalarType)

/-- A JIT subgraph: ordered input placeholders, ordered outputs, nodes,
and the per-value static data.  Values are identified by ids. -/
structure Graph where
  inputs : List Nat
  outputs : List Nat
  nodes : List Node
  vals : Nat → ValueData

/-- Model of `value->uses()`: the consuming nodes of a value, one entry per use
(a node consuming the value at k input positions appears k times). -/
def uses (g : Graph) (v : Nat) : List Node :=
  g.nodes.flatMap (fun nd => List.replicate (nd.inputs.count v) nd)

/-- The mutable local state of one `convertToRelay(subgraph, ...)` pass:
`value_map`, `input_vars`, and the caller-supplied `input_values` vector
(which in `run` is a field of the already-created cache entry, so its
partial contents survive a translation failure). -/
structure TransState where
  vmap : List (Nat × RelayExpr)
  input_vars : List RelayExpr
  input_values : List Nat

/-- Lookup in `value_map` (newest insertion wins, like assignment to
`std::unordered_map`). -/
def vlookup (m : List (Nat × RelayExpr)) (k : Nat) : Option RelayExpr :=
  (m.find? (fun p => p.1 == k)).map (fun p => p.2)

/-- Model of `static_cast<int32_t>` on a dimension size (compiler.cpp:44). -/
def int32cast (n : Nat) : Int := ((n : Int) + 2 ^ 31) % 2 ^ 32 - 2 ^ 31

/-- The `inferTypeFrom` prologue of `convertToRelay(Value*, TVMContext)`
(compiler.cpp:36-39): when the value is a constant, its type is
(re)inferred from `toTensor()` of the constant, which throws if the
constant is not a tensor. -/
def inferFromConst (vd : ValueData) : Except TVMError ValueData :=
  match vd.constVal with
  | Option.none => .ok vd
  | some (.tensor t) => .ok { vd with ty := some (t.shape, t.dtype) }
  | some _ => .error .typeError

/-- Embedding of `TVMCompiler::convertToRelay(Value*, TVMContext)`
(compiler.cpp:35-55): infer the type from a bound constant if any, then
require a complete tensor type and build a typed `VarNode` with a unique
name; the dimension sizes go through `static_cast<int32_t>` and the
element type through `scalarTypeToTVMType` (whose failure propagates).
An incomplete type hits `TORCH_INTERNAL_ASSERT(0)`. -/
def convertValueToVar (g : Graph) (vid : Nat) : Except TVMError RelayExpr := do
  let vd ← inferFromConst (g.vals vid)
  match vd.ty with
  | some (shape, st) =>
    let dt ← scalarTypeToTVMType st
    .ok (.var vid ⟨shape.map int32cast, dt⟩)
  | Option.none => .error .internalAssert

/-- The input-seeding loop of `convertToRelay(subgraph, ...)`
(compiler.cpp:123-131): every declared input must already be a complete
tensor (`TORCH_INTERNAL_ASSERT`), is translated to a typed variable, and
is recorded in `input_vars`, `input_values` and `value_map`. -/
def seedInputs (g : Graph) : List Nat → TransState → Except (TVMError × TransState) TransState
  | [], st => .ok st
  | vid :: rest, st =>
    match (g.vals vid).ty with
    | Option.none => .error (.internalAssert, st)
    | some _ =>
      match convertValueToVar g vid with
      | .error e => .error (e, st)
      | .ok v =>
        seedInputs g rest
          { vmap := (vid, v) :: st.vmap,
            input_vars := st.input_vars ++ [v],
            input_values := st.input_values ++ [vid] }

/-- The input-resolution loop for one consuming node (compiler.cpp:142-163):
an input already in `value_map` is reused; otherwise a constant tensor is
promoted to a runtime input (recorded in `input_values` before its
conversion, so a conversion failure leaves it recorded) and a
non-tensor constant goes through the constant translator; a non-constant
unresolved input sets `skip_user` (modelled by returning `none`). -/
def resolveInputs (g : Graph) : List Nat → TransState →
    Except (TVMError × TransState) (Option (List RelayExpr) × TransState)
  | [], st => .ok (some [], st)
  | vid :: rest, st =>
    match vlookup st.vmap vid with
    | some e =>
      match resolveInputs g rest st with
      | .error err => .error err
      | .ok (Option.none, st') => .ok (Option.none, st')
      | .ok (some args, st') => .ok (some (e :: args), st')
    | Option.none =>
      match (g.vals vid).constVal with
      | Option.none => .ok (Option.none, st)
      | some iv =>
        match iv with
        | .tensor _ =>
          let st1 : TransState := { st with input_values := st.input_values ++ [vid] }
          match convertValueToVar g vid with
          | .error e => .error (e, st1)
          | .ok v =>
            let st2 : TransState :=
              { st1 with input_vars := st1.input_vars ++ [v], vmap := (vid, v) :: st1.vmap }
            match resolveInputs g rest st2 with
            | .error err => .error err
            | .ok (Option.none, st') => .ok (Option.none, st')
            | .ok (some args, st') => .ok (some (v :: args), st')
        | _ =>
          match convertIValueToRelay iv with
          | .error e => .error (e, st)
          | .ok c =>
            let st2 : TransState := { st with vmap := (vid, c) :: st.vmap }
            match resolveInputs g rest st2 with
            | .error err => .error err
            | .ok (Option.none, st') => .ok (Option.none, st')
            | .ok (some args, st') => .ok (some (c :: args), st')

/-- The external operator-translation table and the other external
collaborators of the pipeline (TVM build, JIT interpreter). -/
structure Env where
  getOperator : Node → List RelayExpr → Except TVMError RelayExpr
  buildModule : (List RelayExpr × RelayExpr) → Nat × List TensorV
  interp : List IValue → List IValue

/-- Processing of one use (compiler.cpp:139-187): resolve the consuming
node's inputs (skipping the node if one is not resolvable), skip
zero-output nodes, call `getOperator` once, and bind one output directly
or each of several outputs to a `TupleGetItem` projection; processed
outputs join the next frontier. -/
def processNode (env : Env) (g : Graph) (nd : Node) (st : TransState) (nf : List Nat) :
    Except (TVMError × TransState) (TransState × List Nat) :=
  match resolveInputs g nd.inputs st with
  | .error err => .error err
  | .ok (Option.none, st') => .ok (st', nf)
  | .ok (some args, st') =>
    match nd.outputs with
    | [] => .ok (st', nf)
    | [o] =>
      match env.getOperator nd args with
      | .error e => .error (e, st')
      | .ok ex => .ok ({ st' with vmap := (o, ex) :: st'.vmap }, nf ++ [o])
    | outs =>
      match env.getOperator nd args with
      | .error e => .error (e, st')
      | .ok ex =>
        .ok ({ st' with vmap :=
                 (outs.enum.map (fun p => (p.2, RelayExpr.tupleGetItem ex p.1))).reverse
                   ++ st'.vmap },
             nf ++ outs)

/-- Fold of `processNode` over the uses of one frontier value. -/
def processUses (env : Env) (g : Graph) : List Node → TransState → List Nat →
    Except (TVMError × TransState) (TransState × List Nat)
  | [], st, nf => .ok (st, nf)
  | nd :: rest, st, nf =>
    match processNode env g nd st nf with
    | .error err => .error err
    | .ok (st', nf') => processUses env g rest st' nf'

/-- One pass over the frontier (the two outer `for` loops of
compiler.cpp:137-188). -/
def processFrontier (env : Env) (g : Graph) : List Nat → TransState → List Nat →
    Except (TVMError × TransState) (TransState × List Nat)
  | [], st, nf => .ok (st, nf)
  | v :: vs, st, nf =>
    match processUses env g (uses g v) st nf with
    | .error err => .error err
    | .ok (st', nf') => processFrontier env g vs st' nf'

/-- The `while (frontier.size())` loop (compiler.cpp:135-190).  The C++
loop has no termination guard (a malformed cyclic graph would spin); the
embedding is bounded by fuel, `fuelExhausted` marking runs the C++ code
would not complete. -/
def bfsLoop (env : Env) (g : Graph) : Nat → List Nat → TransState →
    Except (TVMError × TransState) TransState
  | fuel, frontier, st =>
    match frontier with
    | [] => .ok st
    | _ =>
      match fuel with
      | 0 => .error (.fuelExhausted, st)
      | fuel' + 1 =>
        match processFrontier env g frontier st [] with
        | .error err => .error err
        | .ok (st', nf) => bfsLoop env g fuel' nf st'

/-- Lookup in `value_map` of every declared subgraph output (the
`TORCH_INTERNAL_ASSERT` of compiler.cpp:196). -/
def resolveFields (outs : List Nat) (m : List (Nat × RelayExpr)) : Option (List RelayExpr) :=
  outs.mapM (vlookup m)

/-- Number of distinct free variables of the assembled output
(`tvm::relay::FreeVars(output).size()`, each variable counted once). -/
def freeVarCount (body : RelayExpr) : Nat := (freeVarIds body).dedup.length

/-- The epilogue of `convertToRelay(subgraph, ...)` (compiler.cpp:192-213):
assemble the output tuple from the declared outputs, then `TORCH_CHECK`
that the NUMBER of free variables of the body does not exceed the number
of collected input variables, and build the function. -/
def finishFunc (g : Graph) (st : TransState) :
    Except (TVMError × TransState) ((List RelayExpr × RelayExpr) × List Nat) :=
  match resolveFields g.outputs st.vmap with
  | Option.none => .error (.internalAssert, st)
  | some fields =>
    let body := RelayExpr.tuple fields
    if freeVarCount body ≤ st.input_vars.length then
      .ok ((st.input_vars, body), st.input_values)
    else
      .error (.internalConsistency (freeVarCount body) st.input_vars.length, st)

/-- Embedding of `TVMCompiler::convertToRelay(subgraph, ctx, input_values)`
(compiler.cpp:116-213): seed the declared inputs, run the breadth-first
propagation, assemble and check the function.  On failure the error
carries the `TransState` at the throw point, because `input_values` is
written through a pointer into the caller's cache entry and the writes
performed before the throw survive it. -/
def convertSubgraph (env : Env) (g : Graph) (fuel : Nat) :
    Except (TVMError × TransState) ((List RelayExpr × RelayExpr) × List Nat) :=
  match seedInputs g g.inputs ⟨[], [], []⟩ with
  | .error err => .error err
  | .ok st0 =>
    match bfsLoop env g fuel g.inputs st0 with
    | .error err => .error err
    | .ok st1 => finishFunc g st1

/-- The fixed buffer alignment for the zero-copy input path
(compiler.cpp:12). -/
def kAlignment : Nat := 64

/-- One argument's contribution to a `CompleteArgumentSpec`: for a tensor,
its concrete shape and element type; other IValues contribute themselves. -/
inductive ArgSig where
  | tensorSig (shape : List Nat) (dtype : ScalarType)
  | otherSig (v : IValue)
deriving DecidableEq

/-- The signature of an invocation, `CompleteArgumentSpec{false, inputs}`
(compiler.cpp:249). -/
def argSig : IValue → ArgSig
  | .tensor t => .tensorSig t.shape t.dtype
  | v => .otherSig v

/-- One cache entry (`TVMObject`): the ordered runtime-input values and
the runtime handles.  `operator[]` default-constructs an entry whose
`input_values` is empty and whose four `PackedFunc` handles
(`set_input`, `set_input_zero_copy`, `kernel`, `get_output`) are all null;
the handles are assigned together after a successful build, so they are
modelled as one optional runtime module. -/
structure CacheEntry where
  input_values : List Nat
  handles : Option (Nat × List TensorV)

/-- The state of one `TVMCompiler` instance: the subgraph, the strictness
flag, the specialization cache, and a ghost counter of completed
`build_f` invocations (used to state the compile-once property; the C++
code has no such counter, and nothing else reads it). -/
structure CompilerState where
  graph : Graph
  strict : Bool
  cache : List (List ArgSig × CacheEntry)
  builds : Nat

/-- Model of `cache_.find(spec)` (first match wins, newest insertion first). -/
def lookupCache (c : List (List ArgSig × CacheEntry)) (s : List ArgSig) : Option CacheEntry :=
  (c.find? (fun p => p.1 = s)).map (fun p => p.2)

/-- Creation/overwrite of the entry for a signature. -/
def insertCache (c : List (List ArgSig × CacheEntry)) (s : List ArgSig) (e : CacheEntry) :
    List (List ArgSig × CacheEntry) :=
  (s, e) :: c

/-- Model of `last(stack, n)`: the top `n` stack entries (the stack top is the end
of the list). -/
def lastN {α : Type} (l : List α) (n : Nat) : List α := l.drop (l.length - n)

/-- Model of `ivalue.toTensor()` over a whole input list: `none` when some input is
not a tensor (in the code that raises). -/
def tensorsOf : List IValue → Option (List TensorV)
  | [] => some []
  | .tensor t :: rest => (tensorsOf rest).map (fun ts => t :: ts)
  | _ :: _ => Option.none

/-- The `inferTypeFrom` loop of `run` (compiler.cpp:252-254): each input
value's type is refreshed from the concrete tensor bound to it.  The C++
code mutates the graph in place; the model applies the same types as an
override for the current translation pass, which is observationally
equivalent because every cache miss re-runs this loop before
translating. -/
def overrideVals (g : Graph) (binds : List (Nat × TensorV)) : Graph :=
  { g with vals := fun v =>
      match binds.find? (fun p => p.1 == v) with
      | some p => { (g.vals v) with ty := some (p.2.shape, p.2.dtype) }
      | Option.none => g.vals v }

/-- The signature of a call, when the stack holds at least the declared
number of inputs (`last` asserts that in C++). -/
def stackSig (st : CompilerState) (stack : List IValue) : Option (List ArgSig) :=
  if st.graph.inputs.length ≤ stack.length then
    some ((lastN stack st.graph.inputs.length).map argSig)
  else Option.none

/-- Model of `tensor.to(at::kFloat)` (compiler.cpp:304): same tensor when already
float32, otherwise a float32 copy living at the reallocation address. -/
def tensorToFloat (t : TensorV) : TensorV :=
  if t.dtype = .Float then t else { t with dtype := .Float, addr := t.convAddr }

/-- Which input-binding path `run` takes for one tensor. -/
inductive BindPath where
  | zeroCopy
  | copied
deriving DecidableEq

/-- The alignment dispatch of compiler.cpp:306-310: zero-copy exactly when
the (converted) tensor's data address is 64-byte aligned. -/
def chooseBindPath (t : TensorV) : BindPath :=
  if t.addr % kAlignment = 0 then .zeroCopy else .copied

/-- The errors that can escape `TVMCompiler::run` to its caller. -/
inductive RunError where
  | translationError (cause : TVMError)
  | uncaught (e : TVMError)
  | nullPackedFunc
deriving DecidableEq

/-- How one invocation of `run` terminates: `normal` (the compiled runtime
executed; carries the resulting stack and, as a ghost trace, the bound
tensors with the bind path chosen for each), `fellBack` (the JIT
interpreter produced the stack), or `raised` (a C++ exception propagated
to the caller; the stack is untouched). -/
inductive Outcome where
  | normal (st : CompilerState) (stack : List IValue) (trace : List (TensorV × BindPath))
  | fellBack (st : CompilerState) (stack : List IValue)
  | raised (e : RunError) (st : CompilerState) (stack : List IValue)

/-- The compiler state an outcome leaves behind. -/
def Outcome.state : Outcome → CompilerState
  | .normal st _ _ => st
  | .fellBack st _ => st
  | .raised _ st _ => st

/-- The stack an outcome leaves behind. -/
def Outcome.stackOf : Outcome → List IValue
  | .normal _ s _ => s
  | .fellBack _ s => s
  | .raised _ _ s => s

/-- The ghost bind trace of a normal outcome. -/
def Outcome.traceOf : Outcome → List (TensorV × BindPath)
  | .normal _ _ t => t
  | _ => []

/-- The input-binding loop of `run` (compiler.cpp:295-311), one iteration
per recorded runtime-input value: resolve its IValue (from the bound
inputs or, for a promoted constant, from `toIValue`, asserting it is
present), convert the tensor to float32, pick the bind path by alignment,
and invoke the bind handle (which, on a default-constructed cache entry,
is a null `PackedFunc` whose invocation raises).  `resolveBindIValue` is
the per-value resolution step (bound input, else `toIValue`). -/
def resolveBindIValue (g : Graph) (v2i : List (Nat × IValue)) (vid : Nat) : Option IValue :=
  match v2i.find? (fun p => p.1 == vid) with
  | some p => some p.2
  | Option.none => (g.vals vid).constVal

def bindLoop (g : Graph) (v2i : List (Nat × IValue)) (handles : Option (Nat × List TensorV)) :
    List Nat → Except RunError (List (TensorV × BindPath))
  | [] => .ok []
  | vid :: rest =>
    match resolveBindIValue g v2i vid with
    | Option.none => .error (.uncaught .internalAssert)
    | some (.tensor t) =>
      match handles with
      | Option.none => .error .nullPackedFunc
      | some _ =>
        match bindLoop g v2i handles rest with
        | .error e => .error e
        | .ok tr => .ok ((tensorToFloat t, chooseBindPath (tensorToFloat t)) :: tr)
    | some _ => .error (.uncaught .typeError)

/-- The execution tail of `run` for a resolved cache entry
(compiler.cpp:295-325): bind all runtime inputs, invoke the kernel
handle, drop the consumed inputs and push one output tensor per declared
subgraph output. -/
def execPath (st : CompilerState) (stack : List IValue) (v2i : List (Nat × IValue))
    (entry : CacheEntry) (n : Nat) : Outcome :=
  match bindLoop st.graph v2i entry.handles entry.input_values with
  | .error e => .raised e st stack
  | .ok tr =>
    match entry.handles with
    | Option.none => .raised .nullPackedFunc st stack
    | some m =>
      let outs := (List.range st.graph.outputs.length).map
        (fun i => IValue.tensor (m.2.getD i ⟨[], .Float, 0, 0⟩))
      .normal st (stack.take (stack.length - n) ++ outs) tr

/-- Embedding of `TVMCompiler::run(Stack&)` (compiler.cpp:239-326).  On a
cache miss the entry for the signature is created by `operator[]` BEFORE
translation runs (compiler.cpp:260) and is never erased, so a failed
translation leaves a default entry (with the partially written
`input_values`) in the cache; translation failure then either propagates
as one unified error carrying the cause (strict) or falls back to the
interpreter (non-strict). -/
def runModel (env : Env) (st : CompilerState) (stack : List IValue) (fuel : Nat) : Outcome :=
  match stackSig st stack with
  | Option.none => .raised (.uncaught .internalAssert) st stack
  | some sig =>
    let n := st.graph.inputs.length
    let inputs := lastN stack n
    let v2i := st.graph.inputs.zip inputs
    match lookupCache st.cache sig with
    | some entry => execPath st stack v2i entry n
    | Option.none =>
      match tensorsOf inputs with
      | Option.none => .raised (.uncaught .typeError) st stack
      | some ts =>
        match convertSubgraph env (overrideVals st.graph (st.graph.inputs.zip ts)) fuel with
        | .error (e, pst) =>
          let st' : CompilerState :=
            { st with cache := insertCache st.cache sig ⟨pst.input_values, Option.none⟩ }
          if st.strict then .raised (.translationError e) st' stack
          else .fellBack st' (env.interp stack)
        | .ok (f, ivals) =>
          let m := env.buildModule f
          let entry : CacheEntry := ⟨ivals, some m⟩
          let st' : CompilerState :=
            { st with cache := insertCache st.cache sig entry, builds := st.builds + 1 }
          if m.1 = st.graph.outputs.length then execPath st' stack v2i entry n
          else .raised (.uncaught (.outputCountMismatch st.graph.outputs.length m.1)) st' stack

/-- Embedding of the `TVMCompiler` constructor's device handling
(compiler.cpp:227-232): the string `"gpu"` selects the GPU device type and
EVERY other string selects the CPU device type; the device id is always
0. -/
inductive DLDeviceType where
  | kDLCPU
  | kDLGPU
deriving DecidableEq

/-- The TVM device context held by a compiled unit. -/
structure TVMContext where
  device_type : DLDeviceType
  device_id : Nat
deriving DecidableEq

/-- The constructor's context initialization (compiler.cpp:227-232). -/
def initContext (device_type : String) : TVMContext :=
  { device_type := if device_type = "gpu" then .kDLGPU else .kDLCPU,
    device_id := 0 }

/-! ## Concrete fixtures

Small concrete subgraphs, environments and invocations used to witness
and refute claims.  `gGood`/`envGood` is a one-node subgraph whose single
operator the translation table supports; `gBad`/`envBad` is the same
shape of subgraph with an operator the table rejects; `gCex`/`envCex`
exercises an operator handler that returns an expression referring to a
variable that is not among the collected inputs. -/

/-- A one input, one supported node, one output subgraph. -/
def gGood : Graph :=
  { inputs := [0], outputs := [1],
    nodes := [⟨[0], [1], "relu"⟩],
    vals := fun _ => ⟨Option.none, Option.none⟩ }

/-- An environment whose operator table accepts every node, whose build
returns a one-output runtime, and whose interpreter is the identity. -/
def envGood : Env :=
  { getOperator := fun nd args => .ok (.call nd.kind args),
    buildModule := fun _ => (1, [⟨[2], .Float, 0, 0⟩]),
    interp := id }

/-- A stack holding one float32 tensor of shape `[2]` with 64-byte aligned
data. -/
def stackG1 : List IValue := [.tensor ⟨[2], .Float, 0, 0⟩]

/-- The tensors bound by `stackG1`. -/
def tsG1 : List TensorV := [⟨[2], .Float, 0, 0⟩]

/-- A fresh non-strict compiled unit for `gGood`. -/
def stG0 : CompilerState := ⟨gGood, false, [], 0⟩

/-- The outcome of the first invocation on `gGood`. -/
def oG1 : Outcome := runModel envGood stG0 stackG1 10

/-- The same subgraph with an operator the translation table rejects. -/
def gBad : Graph :=
  { inputs := [0], outputs := [1],
    nodes := [⟨[0], [1], "mystery"⟩],
    vals := fun _ => ⟨Option.none, Option.none⟩ }

/-- An environment whose operator table rejects every node and whose
interpreter visibly transforms the stack. -/
def envBad : Env :=
  { getOperator := fun nd _ => .error (.opError nd.kind),
    buildModule := fun _ => (1, []),
    interp := fun s => s ++ [.int 7] }

/-- A fresh non-strict compiled unit for `gBad`. -/
def stBad0 : CompilerState := ⟨gBad, false, [], 0⟩

/-- The outcome of the first (failing, falling back) invocation on
`gBad`. -/
def oBad1 : Outcome := runModel envBad stBad0 stackG1 10

/-- A fresh STRICT compiled unit for `gBad`. -/
def stStrict0 : CompilerState := ⟨gBad, true, [], 0⟩

/-- The translation state at the point where translating `gBad` (with the
types inferred from `stackG1`) throws. -/
def pstBad : TransState :=
  match convertSubgraph envBad (overrideVals gBad (gBad.inputs.zip tsG1)) 10 with
  | .error (_, p) => p
  | .ok _ => ⟨[], [], []⟩

/-- Two inputs, one node consuming only the first; the operator handler of
`envCex` translates it to a foreign variable. -/
def gCex : Graph :=
  { inputs := [0, 1], outputs := [2],
    nodes := [⟨[0], [2], "alien"⟩],
    vals := fun v =>
      if v ≤ 1 then ⟨Option.none, some ([2], .Float)⟩
      else ⟨Option.none, Option.none⟩ }

/-- An environment whose operator table answers with a variable (id 99)
that is not among the collected input variables.  The operator table is an
external collaborator; nothing in the translation unit constrains which
expression it returns. -/
def envCex : Env :=
  { getOperator := fun _ _ => .ok (.var 99 ⟨[], .uint 1⟩),
    buildModule := fun _ => (1, []),
    interp := id }

/-- The function produced by translating `gCex` under `envCex`. -/
def fCex : List RelayExpr × RelayExpr :=
  match convertSubgraph envCex gCex 10 with
  | .ok (f, _) => f
  | .error _ => ([], .tuple [])

/-! ## Theorems -/

theorem Dyadic.dle_iff (a b : Dyadic) : a.dle b = true ↔ a.toRat ≤ b.toRat := by
  unfold Dyadic.dle Dyadic.toRat
  split
  · rename_i h
    rw [decide_eq_true_eq]
    have h2 : (2:ℚ) ^ b.e = 2 ^ a.e * 2 ^ ((b.e - a.e).toNat : ℤ) := by
      rw [← zpow_add₀ (by norm_num : (2:ℚ) ≠ 0)]
      congr 1
      omega
    rw [h2]
    have hpos : (0:ℚ) < 2 ^ a.e := by positivity
    rw [show (b.m : ℚ) * (2 ^ a.e * 2 ^ ((b.e - a.e).toNat : ℤ)) =
        (b.m * 2 ^ ((b.e - a.e).toNat : ℤ)) * 2 ^ a.e by ring]
    rw [mul_le_mul_right hpos]
    rw [zpow_natCast]
    norm_cast
  · rename_i h
    rw [decide_eq_true_eq]
    have h2 : (2:ℚ) ^ a.e = 2 ^ b.e * 2 ^ ((a.e - b.e).toNat : ℤ) := by
      rw [← zpow_add₀ (by norm_num : (2:ℚ) ≠ 0)]
      congr 1
      omega
    rw [h2]
    have hpos : (0:ℚ) < 2 ^ b.e := by positivity
    rw [show (a.m : ℚ) * (2 ^ b.e * 2 ^ ((a.e - b.e).toNat : ℤ)) =
        (a.m * 2 ^ ((a.e - b.e).toNat : ℤ)) * 2 ^ b.e by ring]
    rw [mul_le_mul_right hpos]
    rw [zpow_natCast]
    norm_cast

theorem floatLowestD_toRat : floatLowestD.toRat = -floatMaxD.toRat := by
  unfold Dyadic.toRat floatLowestD floatMaxD
  push_cast
  ring

/-- C10: the compiled-unit constructor never rejects a device-kind string:
the device index is always 0, and the device type is GPU exactly for the
string "gpu" — every other string (not only "cpu") silently selects the
CPU device type. -/
theorem device_kind_never_rejected :
    ∀ s : String, (initContext s).device_id = 0 ∧
      ((initContext s).device_type = .kDLGPU ↔ s = "gpu") := by
  intro s
  refine ⟨rfl, ?_⟩
  unfold initContext
  split
  · rename_i h
    simp [h]
  · rename_i h
    simp [h]

/-- C6: the type mapper is a total deterministic function sending
float32/float64/int32/int64/bool/int8/uint8 and the quantized integer
kinds (qint8, quint8, qint32) to their TVM equivalents (bool being
`tvm::Bool()` = `UInt(1)`), and failing with `UnsupportedTypeError`
carrying exactly the offending type for every type outside this set. -/
theorem scalar_type_mapping_total :
    (scalarTypeToTVMType .Float = .ok (.float 32)) ∧
    (scalarTypeToTVMType .Double = .ok (.float 64)) ∧
    (scalarTypeToTVMType .Int = .ok (.int 32)) ∧
    (scalarTypeToTVMType .Long = .ok (.int 64)) ∧
    (scalarTypeToTVMType .Bool = .ok (.uint 1)) ∧
    (scalarTypeToTVMType .Char = .ok (.int 8)) ∧
    (scalarTypeToTVMType .Byte = .ok (.uint 8)) ∧
    (scalarTypeToTVMType .QInt8 = .ok (.int 8)) ∧
    (scalarTypeToTVMType .QUInt8 = .ok (.uint 8)) ∧
    (scalarTypeToTVMType .QInt32 = .ok (.int 32)) ∧
    (∀ t : ScalarType,
      scalarTypeToTVMType t = .error (.unsupportedType t) ↔
        (t = .Half ∨ t = .Short ∨ t = .ComplexHalf ∨ t = .ComplexFloat ∨
         t = .ComplexDouble ∨ t = .BFloat16)) := by
  decide

/-- C8: translating a None constant produces a scalar constant of uint64
element type carrying the reserved sentinel, and that constant is produced
for no other constant kind: among all translator results it characterizes
None. -/
theorem none_sentinel_distinguished :
    convertIValueToRelay IValue.none = .ok (.const (.uint 64) .noneSentinel) ∧
    ∀ v : IValue,
      convertIValueToRelay v = .ok (.const (.uint 64) .noneSentinel) ↔ v = IValue.none := by
  refine ⟨rfl, ?_⟩
  intro v
  cases v with
  | double d =>
    simp only [convertIValueToRelay]
    split_ifs <;> simp
  | int n =>
    simp only [convertIValueToRelay]
    split_ifs <;> simp
  | bool b => simp [convertIValueToRelay]
  | none => simp [convertIValueToRelay]
  | intList xs =>
    simp only [convertIValueToRelay]
    cases h : convertIntListElems xs <;> simp [Except.map, h]
  | tensor t => simp [convertIValueToRelay]

/-- C1: on a cache miss with a failing translation, non-strict mode, the
run executes the interpretation fallback — but, contrary to the claim, it
leaves a default-constructed cache entry under the signature (with the
partially written `input_values` and null runtime handles), so the next
invocation with the same signature does NOT retry translation: it takes
the cache-hit path and crashes by invoking a null `PackedFunc`. -/
theorem failed_translation_poisons_cache :
    runModel envBad stBad0 stackG1 10 = .fellBack oBad1.state (envBad.interp stackG1) ∧
    lookupCache oBad1.state.cache (stackG1.map argSig) = some ⟨[0], Option.none⟩ ∧
    runModel envBad oBad1.state stackG1 10 = .raised .nullPackedFunc oBad1.state stackG1 :=
  ⟨rfl, rfl, rfl⟩

theorem convertIntListElems_eq (xs : List Int) :
    convertIntListElems xs
      = if ∀ x ∈ xs, int32Min ≤ x ∧ x ≤ int32Max
        then .ok (xs.map (fun x => RelayExpr.const (.int 32) (.intVal x)))
        else .error .rangeError := by
  induction xs with
  | nil => simp [convertIntListElems]
  | cons x rest ih =>
    simp only [convertIntListElems]
    rw [ih]
    by_cases h1 : x ≤ int32Max
    · rw [if_pos h1]
      by_cases h2 : int32Min ≤ x
      · rw [if_pos h2]
        by_cases hrest : ∀ y ∈ rest, int32Min ≤ y ∧ y ≤ int32Max
        · rw [if_pos hrest, if_pos (by
            intro y hy
            rcases List.mem_cons.mp hy with hy | hy
            · exact hy ▸ ⟨h2, h1⟩
            · exact hrest y hy)]
          simp [Except.map]
        · rw [if_neg hrest, if_neg (by
            intro hall
            exact hrest (fun y hy => hall y (List.mem_cons_of_mem x hy)))]
          simp [Except.map]
      · rw [if_neg h2, if_neg (by
          intro hall
          exact h2 (hall x (List.mem_cons_self x rest)).1)]
    · rw [if_neg h1, if_neg (by
        intro hall
        exact h1 (hall x (List.mem_cons_self x rest)).2)]

theorem dyadic_three_halves : (Dyadic.mk 3 (-1)).toRat = 3 / 2 := by
  unfold Dyadic.toRat
  rw [show ((-1 : ℤ)) = -((1 : ℕ) : ℤ) by norm_num, zpow_neg, zpow_natCast]
  norm_num

theorem dyadic_rounded_three_halves : (Dyadic.mk 12582912 (-23)).toRat = 3 / 2 := by
  unfold Dyadic.toRat
  rw [show ((-23 : ℤ)) = -((23 : ℕ) : ℤ) by norm_num, zpow_neg, zpow_natCast]
  norm_num

set_option maxRecDepth 40000 in
/-- C4: the constant translator narrows every double to 32-bit float and
every integer (and every element of an int list, which becomes a tuple of
int32 scalar constants) to 32-bit signed, failing with the range-check
error exactly when the value lies outside the target range; in particular
the double `1e308` and the integer `2^40` fail, while the double `1.5`
yields a float32 constant of value `3/2` and the integer `42` an int32
constant `42`. -/
theorem constant_numeric_narrowing :
    (∀ d : Dyadic,
        convertIValueToRelay (.double d)
          = if -floatMaxD.toRat ≤ d.toRat ∧ d.toRat ≤ floatMaxD.toRat
            then .ok (.const (.float 32) (.floatVal (roundF32 d)))
            else .error .rangeError) ∧
    (∀ n : Int,
        convertIValueToRelay (.int n)
          = if int32Min ≤ n ∧ n ≤ int32Max
            then .ok (.const (.int 32) (.intVal n))
            else .error .rangeError) ∧
    (∀ xs : List Int,
        convertIValueToRelay (.intList xs)
          = if ∀ x ∈ xs, int32Min ≤ x ∧ x ≤ int32Max
            then .ok (.tuple (xs.map (fun x => RelayExpr.const (.int 32) (.intVal x))))
            else .error .rangeError) ∧
    convertIValueToRelay (.double ⟨10 ^ 308, 0⟩) = .error .rangeError ∧
    convertIValueToRelay (.double ⟨3, -1⟩)
        = .ok (.const (.float 32) (.floatVal ⟨12582912, -23⟩)) ∧
    (Dyadic.mk 3 (-1)).toRat = 3 / 2 ∧
    (Dyadic.mk 12582912 (-23)).toRat = 3 / 2 ∧
    convertIValueToRelay (.int (2 ^ 40)) = .error .rangeError ∧
    convertIValueToRelay (.int 42) = .ok (.const (.int 32) (.intVal 42)) := by
  refine ⟨?_, ?_, ?_, rfl, rfl, dyadic_three_halves, dyadic_rounded_three_halves, rfl, rfl⟩
  · intro d
    simp only [convertIValueToRelay]
    by_cases h1 : d.toRat ≤ floatMaxD.toRat
    · rw [if_pos ((Dyadic.dle_iff d floatMaxD).mpr h1)]
      by_cases h2 : -floatMaxD.toRat ≤ d.toRat
      · rw [if_pos ((Dyadic.dle_iff floatLowestD d).mpr (floatLowestD_toRat ▸ h2))]
        rw [if_pos ⟨h2, h1⟩]
      · rw [if_neg (fun hc => h2 (floatLowestD_toRat ▸ (Dyadic.dle_iff floatLowestD d).mp hc))]
        rw [if_neg (fun hc => h2 hc.1)]
    · rw [if_neg (fun hc => h1 ((Dyadic.dle_iff d floatMaxD).mp hc))]
      rw [if_neg (fun hc => h1 hc.2)]
  · intro n
    simp only [convertIValueToRelay]
    by_cases h1 : n ≤ int32Max
    · rw [if_pos h1]
      by_cases h2 : int32Min ≤ n
      · rw [if_pos h2, if_pos ⟨h2, h1⟩]
      · rw [if_neg h2, if_neg (fun hc => h2 hc.1)]
    · rw [if_neg h1, if_neg (fun hc => h1 hc.2)]
  · intro xs
    simp only [convertIValueToRelay]
    rw [convertIntListElems_eq]
    by_cases h : ∀ x ∈ xs, int32Min ≤ x ∧ x ≤ int32Max
    · rw [if_pos h, if_pos h]
      simp [Except.map]
    · rw [if_neg h, if_neg h]
      simp [Except.map]

/-- C2 (counterexample): translation of `gCex` under `envCex` SUCCEEDS and
returns a function — yet the free variables of its body (variable id 99,
produced by the external operator handler) are NOT a subset of the
collected runtime-input variables (ids 0 and 1).  The code only compares
the COUNT of free variables (1) against the count of inputs (2), so the
claimed subset check never runs. -/
theorem free_vars_not_subset_counterexample :
    convertSubgraph envCex gCex 10 = .ok (fCex, [0, 1]) ∧
    ¬ (∀ i ∈ freeVarIds fCex.2, i ∈ freeVarIdsList fCex.1) := by
  refine ⟨rfl, ?_⟩
  intro hall
  have h99 : (99 : Nat) ∈ freeVarIds fCex.2 := by
    show (99 : Nat) ∈ freeVarIds fCex.2
    rw [show freeVarIds fCex.2 = [99] from rfl]
    exact List.mem_singleton.mpr rfl
  have := hall 99 h99
  rw [show freeVarIdsList fCex.1 = [0, 1] from rfl] at this
  simp at this

/-- C2 (amended): at the end of graph translation the code compares only
the NUMBER of distinct free variables of the assembled output tuple with
the number of collected runtime-input variables: a returned function
guarantees the count inequality, and — whenever the declared outputs all
resolve — the epilogue fails with the internal-consistency error exactly
when the free-variable count strictly exceeds the input count.  Subset
inclusion itself is not checked (see the counterexample). -/
theorem free_var_count_check :
    (∀ (env : Env) (g : Graph) (fuel : Nat) (f : List RelayExpr × RelayExpr) (iv : List Nat),
        convertSubgraph env g fuel = .ok (f, iv) → freeVarCount f.2 ≤ f.1.length) ∧
    (∀ (g : Graph) (st : TransState) (fields : List RelayExpr),
        resolveFields g.outputs st.vmap = some fields →
        (finishFunc g st
            = .error (.internalConsistency (freeVarCount (.tuple fields)) st.input_vars.length, st)
          ↔ st.input_vars.length < freeVarCount (.tuple fields))) := by
  constructor
  · intro env g fuel f iv h
    unfold convertSubgraph at h
    split at h
    · exact absurd h (by simp)
    · split at h
      · exact absurd h (by simp)
      · unfold finishFunc at h
        split at h
        · exact absurd h (by simp)
        · simp only [] at h
          split at h
          · rename_i hle
            cases h
            exact hle
          · exact absurd h (by simp)
  · intro g st fields hfields
    unfold finishFunc
    rw [hfields]
    simp only []
    by_cases hle : freeVarCount (RelayExpr.tuple fields) ≤ st.input_vars.length
    · rw [if_pos hle]
      constructor
      · intro h
        exact absurd h (by simp)
      · intro h
        omega
    · rw [if_neg hle]
      constructor
      · intro _
        omega
      · intro _
        rfl

/-- C2 (witness for the amended theorem, instantiated at the concrete
successful translation of `gCex`). -/
theorem free_var_count_check_witness : freeVarCount fCex.2 ≤ fCex.1.length :=
  free_var_count_check.1 envCex gCex 10 fCex [0, 1] rfl

/-- C5: in strict mode, on a cache miss whose translation fails, `run`
raises the single unified translation error carrying the original cause
`e` (`AT_ERROR` embeds `e.what()`), the caller's stack is returned
untouched (the consumed-input drop and the output pushes are never
reached), and neither the compiled runtime nor the interpreter executes
(the outcome is `raised`, not `normal` or `fellBack`). -/
theorem strict_mode_translation_error
    (env : Env) (st : CompilerState) (stack : List IValue) (sig : List ArgSig)
    (ts : List TensorV) (e : TVMError) (pst : TransState) (fuel : Nat)
    (hstrict : st.strict = true)
    (hsig : stackSig st stack = some sig)
    (hmiss : lookupCache st.cache sig = Option.none)
    (hts : tensorsOf (lastN stack st.graph.inputs.length) = some ts)
    (htrans : convertSubgraph env
        (overrideVals st.graph (st.graph.inputs.zip ts)) fuel = .error (e, pst)) :
    runModel env st stack fuel
      = .raised (.translationError e)
          { st with cache := insertCache st.cache sig ⟨pst.input_values, Option.none⟩ }
          stack := by
  unfold runModel
  rw [hsig]
  simp only [hmiss, hts, htrans, hstrict]
  simp

/-- C5 (witness): the strict compiled unit for `gBad`, invoked on
`stackG1`, raises the unified error carrying the operator-table failure
and returns the stack unchanged. -/
theorem strict_mode_translation_error_witness :
    runModel envBad stStrict0 stackG1 10
      = .raised (.translationError (.opError "mystery"))
          { stStrict0 with
              cache := insertCache stStrict0.cache (stackG1.map argSig)
                ⟨pstBad.input_values, Option.none⟩ }
          stackG1 :=
  strict_mode_translation_error envBad stStrict0 stackG1 (stackG1.map argSig) tsG1
    (.opError "mystery") pstBad 10 rfl rfl rfl rfl rfl

theorem lookupCache_insert_self (c : List (List ArgSig × CacheEntry)) (s : List ArgSig)
    (e : CacheEntry) : lookupCache (insertCache c s e) s = some e := by
  simp [lookupCache, insertCache, List.find?]

theorem lookupCache_insert_ne (c : List (List ArgSig × CacheEntry)) (s s' : List ArgSig)
    (e : CacheEntry) (h : s ≠ s') :
    lookupCache (insertCache c s e) s' = lookupCache c s' := by
  simp [lookupCache, insertCache, List.find?, h]

theorem execPath_state (st : CompilerState) (stack : List IValue)
    (v2i : List (Nat × IValue)) (entry : CacheEntry) (n : Nat) :
    (execPath st stack v2i entry n).state = st := by
  unfold execPath
  split
  · rfl
  · split
    · rfl
    · rfl

theorem runModel_hit_state {env : Env} {st : CompilerState} {stack : List IValue}
    {sig : List ArgSig} {entry : CacheEntry} (fuel : Nat)
    (hsig : stackSig st stack = some sig)
    (hhit : lookupCache st.cache sig = some entry) :
    (runModel env st stack fuel).state = st := by
  unfold runModel
  rw [hsig]
  simp only [hhit]
  exact execPath_state st stack _ entry _

theorem runModel_miss_normal {env : Env} {st : CompilerState} {stack : List IValue}
    {sig : List ArgSig} {fuel : Nat} {st' : CompilerState} {o : List IValue}
    {tr : List (TensorV × BindPath)}
    (hsig : stackSig st stack = some sig)
    (hmiss : lookupCache st.cache sig = Option.none)
    (h : runModel env st stack fuel = .normal st' o tr) :
    ∃ entry : CacheEntry, entry.handles.isSome = true ∧
      st' = { st with cache := insertCache st.cache sig entry, builds := st.builds + 1 } := by
  unfold runModel at h
  rw [hsig] at h
  simp only [hmiss] at h
  split at h
  · exact Outcome.noConfusion h
  · split at h
    · split at h
      · exact Outcome.noConfusion h
      · exact Outcome.noConfusion h
    · rename_i f ivals heq
      split at h
      · have hst := congrArg Outcome.state h
        rw [execPath_state] at hst
        exact ⟨⟨ivals, some (env.buildModule f)⟩, rfl, hst.symm⟩
      · exact Outcome.noConfusion h

/-- C3: for two invocations with the same input signature, translation and
build run exactly once in total: a cache-missing invocation that completes
normally increments the (ghost) build counter by one and creates the cache
entry for the signature; every further invocation with that signature
leaves the whole compiler state (cache and build counter) unchanged; and
an invocation with a different, uncached signature that completes normally
performs one further build stored under its own entry, leaving the first
entry untouched. -/
theorem cache_single_build_per_signature
    (env : Env) (st st1 : CompilerState) (stack1 : List IValue) (sig1 : List ArgSig)
    (o1 : List IValue) (t1 : List (TensorV × BindPath)) (fuel : Nat)
    (hsig1 : stackSig st stack1 = some sig1)
    (hmiss : lookupCache st.cache sig1 = Option.none)
    (h1 : runModel env st stack1 fuel = .normal st1 o1 t1) :
    st1.builds = st.builds + 1
    ∧ (lookupCache st1.cache sig1).isSome = true
    ∧ (∀ stack2, stackSig st1 stack2 = some sig1 →
        (runModel env st1 stack2 fuel).state = st1)
    ∧ (∀ stack3 sig3 st2 o2 t2,
        stackSig st1 stack3 = some sig3 → sig3 ≠ sig1 →
        lookupCache st1.cache sig3 = Option.none →
        runModel env st1 stack3 fuel = .normal st2 o2 t2 →
        st2.builds = st1.builds + 1 ∧ (lookupCache st2.cache sig3).isSome = true
          ∧ lookupCache st2.cache sig1 = lookupCache st1.cache sig1) := by
  obtain ⟨entry, hent, hst1⟩ := runModel_miss_normal hsig1 hmiss h1
  subst hst1
  refine ⟨rfl, ?_, ?_, ?_⟩
  · rw [lookupCache_insert_self]
    rfl
  · intro stack2 hsig2
    exact runModel_hit_state fuel hsig2 (lookupCache_insert_self st.cache sig1 entry)
  · intro stack3 sig3 st2 o2 t2 hsig3 hne hmiss3 h3
    obtain ⟨entry3, hent3, hst2⟩ := runModel_miss_normal hsig3 hmiss3 h3
    subst hst2
    refine ⟨rfl, ?_, ?_⟩
    · rw [lookupCache_insert_self]
      rfl
    · exact lookupCache_insert_ne _ sig3 sig1 entry3 hne

/-- C3 (witness): the first invocation on the fresh `gGood` unit performs
exactly one build. -/
theorem cache_single_build_per_signature_witness :
    oG1.state.builds = stG0.builds + 1 :=
  (cache_single_build_per_signature envGood stG0 oG1.state stackG1 (stackG1.map argSig)
    oG1.stackOf oG1.traceOf 10 rfl rfl rfl).1

theorem tensorToFloat_dtype (t : TensorV) : (tensorToFloat t).dtype = .Float := by
  unfold tensorToFloat
  split
  · rename_i h
    exact h
  · rfl

theorem chooseBindPath_iff (t : TensorV) :
    chooseBindPath t = .zeroCopy ↔ t.addr % kAlignment = 0 := by
  unfold chooseBindPath
  split
  · rename_i h
    exact ⟨fun _ => h, fun _ => rfl⟩
  · rename_i h
    exact ⟨fun hc => absurd hc (by simp), fun hc => absurd hc h⟩

theorem bindLoop_trace_prop (g : Graph) (v2i : List (Nat × IValue))
    (handles : Option (Nat × List TensorV)) :
    ∀ (vids : List Nat) (tr : List (TensorV × BindPath)),
      bindLoop g v2i handles vids = .ok tr →
      ∀ p ∈ tr, p.1.dtype = .Float ∧ (p.2 = .zeroCopy ↔ p.1.addr % kAlignment = 0) := by
  intro vids
  induction vids with
  | nil =>
    intro tr h
    cases h
    intro p hp
    exact absurd hp (List.not_mem_nil p)
  | cons vid rest ih =>
    intro tr h
    unfold bindLoop at h
    split at h
    · exact Except.noConfusion h
    · rename_i t heqr
      split at h
      · exact Except.noConfusion h
      · split at h
        · exact Except.noConfusion h
        · rename_i tr' heq
          cases h
          intro p hp
          rcases List.mem_cons.mp hp with hp | hp
          · subst hp
            exact ⟨tensorToFloat_dtype t, chooseBindPath_iff (tensorToFloat t)⟩
          · exact ih tr' heq p hp
    · exact Except.noConfusion h

theorem execPath_normal_trace {st : CompilerState} {stack : List IValue}
    {v2i : List (Nat × IValue)} {entry : CacheEntry} {n : Nat}
    {st' : CompilerState} {o : List IValue} {tr : List (TensorV × BindPath)}
    (h : execPath st stack v2i entry n = .normal st' o tr) :
    bindLoop st.graph v2i entry.handles entry.input_values = .ok tr := by
  unfold execPath at h
  split at h
  · exact Outcome.noConfusion h
  · rename_i tr' heq
    split at h
    · exact Outcome.noConfusion h
    · cases h
      exact heq

theorem runModel_normal_trace {env : Env} {st : CompilerState} {stack : List IValue}
    {fuel : Nat} {st' : CompilerState} {o : List IValue} {tr : List (TensorV × BindPath)}
    (h : runModel env st stack fuel = .normal st' o tr) :
    ∀ p ∈ tr, p.1.dtype = .Float ∧ (p.2 = .zeroCopy ↔ p.1.addr % kAlignment = 0) := by
  unfold runModel at h
  split at h
  · exact Outcome.noConfusion h
  · simp only [] at h
    split at h
    · exact bindLoop_trace_prop _ _ _ _ tr (execPath_normal_trace h)
    · split at h
      · exact Outcome.noConfusion h
      · split at h
        · split at h
          · exact Outcome.noConfusion h
          · exact Outcome.noConfusion h
        · split at h
          · exact bindLoop_trace_prop _ _ _ _ tr (execPath_normal_trace h)
          · exact Outcome.noConfusion h

/-- C7: on every invocation that executes the compiled runtime, each bound
runtime-input tensor is bound through the zero-copy path if and only if
the address of the buffer actually handed to the runtime is 64-byte
aligned (`kAlignment`), and through the copying path otherwise. -/
theorem zero_copy_iff_aligned (env : Env) (st : CompilerState) (stack : List IValue)
    (fuel : Nat) (st' : CompilerState) (out : List IValue)
    (tr : List (TensorV × BindPath))
    (h : runModel env st stack fuel = .normal st' out tr) :
    ∀ p ∈ tr, (p.2 = .zeroCopy ↔ p.1.addr % kAlignment = 0) :=
  fun p hp => (runModel_normal_trace h p hp).2

/-- C7 (witness): the single tensor bound in the concrete `gGood` run was
bound zero-copy, and its address is 64-byte aligned. -/
theorem zero_copy_iff_aligned_witness :
    ((oG1.traceOf.headD (⟨[], .Float, 0, 0⟩, .zeroCopy)).2 = .zeroCopy ↔
      (oG1.traceOf.headD (⟨[], .Float, 0, 0⟩, .zeroCopy)).1.addr % kAlignment = 0) :=
  zero_copy_iff_aligned envGood stG0 stackG1 10 oG1.state oG1.stackOf oG1.traceOf rfl
    (oG1.traceOf.headD (⟨[], .Float, 0, 0⟩, .zeroCopy))
    (by
      rw [show oG1.traceOf
          = [((⟨[2], .Float, 0, 0⟩ : TensorV), BindPath.zeroCopy)] from rfl]
      exact List.mem_singleton.mpr rfl)

/-- C9: on every invocation that reaches the binding step, every
runtime-input tensor is converted to float32 element type before being
bound into the compiled runtime, regardless of its original element
type. -/
theorem inputs_converted_to_float32 (env : Env) (st : CompilerState) (stack : List IValue)
    (fuel : Nat) (st' : CompilerState) (out : List IValue)
    (tr : List (TensorV × BindPath))
    (h : runModel env st stack fuel = .normal st' out tr) :
    ∀ p ∈ tr, p.1.dtype = .Float :=
  fun p hp => (runModel_normal_trace h p hp).1

/-- C9 (witness): the tensor bound in the concrete `gGood` run has float32
element type. -/
theorem inputs_converted_to_float32_witness :
    (oG1.traceOf.headD (⟨[], .Float, 0, 0⟩, .zeroCopy)).1.dtype = .Float :=
  inputs_converted_to_float32 envGood stG0 stackG1 10 oG1.state oG1.stackOf oG1.traceOf rfl
    (oG1.traceOf.headD (⟨[], .Float, 0, 0⟩, .zeroCopy))
    (by
      rw [show oG1.traceOf
          = [((⟨[2], .Float, 0, 0⟩ : TensorV), BindPath.zeroCopy)] from rfl]
      exact List.mem_singleton.mpr rfl)
